import Mathlib

/-!
Shallow embedding of the Taco Group live-production engine
(`src/main.py`, `src/erpnext_sync.py`): the machine data model, the
progress-simulator tick (`automatic_meter_counter`), the alert engine
(`production_alerts`), the machine controls (`update_machine_status`,
`pause_machine`, `start_machine`, `stop_machine`) and the work-order
assignment pass (`auto_assign_work_orders`), together with theorems
settling the specification claims about them.
-/

namespace TacoProduction

/-- Python truthiness of an optional string: `None` and `""` are falsy. -/
def optStrTruthy : Option String → Bool
  | none => false
  | some s => !s.isEmpty

/-- Python truthiness of an optional integer: `None` and `0` are falsy. -/
def optIntTruthy : Option Int → Bool
  | none => false
  | some v => v != 0

/-- The `Machine` row (`models.Machine` as used by `main.py` and
`erpnext_sync.py`).  Timestamps are modelled as integer seconds. -/
structure Machine where
  id : Int
  location : String
  name : String
  status : String
  is_locked : Bool
  work_order : Option String
  erpnext_work_order_id : Option String
  pipe_size : Option String
  target_qty : Int
  produced_qty : Int
  seconds_per_meter : Option Int
  last_tick_time : Option Int
deriving DecidableEq, Inhabited

/-- The `ERPNextMetadata` row: the work-order assignment record. -/
structure ERPNextMetadata where
  machine_id : Int
  work_order : String
  erp_status : String
  erp_comments : Option String
  last_synced : Int
deriving DecidableEq, Inhabited

/-- One `ProductionLog` row: an append-only record of one produced unit. -/
structure ProductionLog where
  machine_id : Int
  work_order : String
  pipe_size : Option String
  produced_qty : Int
  timestamp : Int
deriving DecidableEq, Inhabited

/-- An external ERPNext work order as consumed by
`auto_assign_work_orders` (fields read from the fetched dict). -/
structure WorkOrder where
  name : String
  status : String
  custom_machine_id : Option String
  custom_location : Option String
  custom_pipe_size : Option String
  qty : Int
  produced_qty : Int
deriving DecidableEq, Inhabited

/-- The persistent store: machine rows, assignment records, production
logs. -/
structure Store where
  machines : List Machine
  metas : List ERPNextMetadata
  logs : List ProductionLog
deriving DecidableEq, Inhabited

/-- Index of the first element satisfying `p`, if any. -/
def findFirstIdx {α : Type} (p : α → Bool) : List α → Option Nat
  | [] => none
  | a :: as => if p a then some 0 else (findFirstIdx p as).map (· + 1)

/-! ## Progress Simulator (`automatic_meter_counter`, `main.py` 240-270) -/

/-- Result of running the meter-counter loop body on one machine: the
mutated machine row, the appended `ProductionLog` entry if a unit was
produced, and the `erp_status` written to the matching assignment
record (if one exists). -/
structure MeterResult where
  machine : Machine
  log : Option ProductionLog
  metaStatus : Option String
deriving DecidableEq, Inhabited

/-- One machine's pass through the body of `automatic_meter_counter`
(`main.py` 240-270): skip if `seconds_per_meter` or `work_order` is
falsy; initialize a missing `last_tick_time` without advancing; else,
if the elapsed time reaches `seconds_per_meter` and the target is not
yet met, advance `produced_qty` by one, stamp `last_tick_time`, log
one unit, mark the record `In Progress`, and on reaching the target
clamp to `target_qty` and complete the machine (status `completed`,
unlocked, record `Completed`, as `update_machine_status` does). -/
def meterTick (now : Int) (m : Machine) : MeterResult :=
  if !(optIntTruthy m.seconds_per_meter) || !(optStrTruthy m.work_order) then
    ⟨m, none, none⟩
  else
    match m.last_tick_time with
    | none => ⟨{ m with last_tick_time := some now }, none, none⟩
    | some t =>
      let diff := now - t
      if diff ≥ m.seconds_per_meter.getD 0 ∧ m.produced_qty < m.target_qty then
        let m1 : Machine :=
          { m with produced_qty := m.produced_qty + 1, last_tick_time := some now }
        let entry : ProductionLog := ⟨m.id, m.work_order.getD "", m.pipe_size, 1, now⟩
        if m1.produced_qty ≥ m1.target_qty then
          ⟨{ m1 with produced_qty := m1.target_qty, status := "completed",
                     is_locked := false }, some entry, some "Completed"⟩
        else
          ⟨m1, some entry, some "In Progress"⟩
      else ⟨m, none, none⟩

/-- Write `erp_status`/`last_synced` on the first assignment record
matching `woName`, if any (the `meta` lookup and mutation in
`automatic_meter_counter`). -/
def applyMetaStatus (now : Int) (woName status : String)
    (metas : List ERPNextMetadata) : List ERPNextMetadata :=
  match findFirstIdx (fun mt => mt.work_order == woName) metas with
  | none => metas
  | some j =>
    metas.set j
      { metas.getD j default with erp_status := status, last_synced := now }

/-- One full tick of `automatic_meter_counter` over the store: every
machine with `status = "running"` goes through `meterTick`; logs are
appended and record statuses applied in machine order. -/
def tickStore (now : Int) (st : Store) : Store :=
  let results := st.machines.map
    (fun m => if m.status == "running" then meterTick now m else ⟨m, none, none⟩)
  { machines := results.map (fun r => r.machine),
    metas := results.foldl
      (fun acc r =>
        match r.metaStatus with
        | none => acc
        | some s => applyMetaStatus now (r.machine.work_order.getD "") s acc)
      st.metas,
    logs := st.logs ++ results.foldl (fun acc r => acc ++ r.log.toList) [] }

/-! ## Alert Engine (`production_alerts`, `main.py` 287-320) -/

/-- Discrete alert level of a percent value (`main.py` 300-308). -/
def alertLevel (percent : ℚ) : Nat :=
  if percent ≥ 100 then 3
  else if percent ≥ 90 then 2
  else if percent ≥ 75 then 1
  else 0

/-- Progress percent of a machine (`produced_qty / target_qty * 100`). -/
def percentOf (m : Machine) : ℚ :=
  ((m.produced_qty : ℚ) / (m.target_qty : ℚ)) * 100

/-- The body of `production_alerts` for one machine: given the
process-local `alert_history` (last emitted level per machine id),
returns the updated history and the emitted alert `(machine_id,
level)`, if any.  Machines are skipped unless `target_qty > 0` (query
filter), the work order is set, and the status is `running`. -/
def alertTick (hist : Int → Nat) (m : Machine) : (Int → Nat) × Option (Int × Nat) :=
  if !(decide (m.target_qty > 0)) then (hist, none)
  else if !(optStrTruthy m.work_order) || !(m.status == "running") then (hist, none)
  else
    let percent := percentOf m
    let last_level := hist m.id
    let alert_level := alertLevel percent
    if alert_level > 0 ∧ alert_level ≠ last_level then
      (fun k => if k == m.id then alert_level else hist k, some (m.id, alert_level))
    else if percent < 75 then
      (fun k => if k == m.id then 0 else hist k, none)
    else (hist, none)

/-- One alert-engine pass over a sequence of machine readings,
collecting the emitted alerts in order. -/
def alertRun (hist : Int → Nat) : List Machine → (Int → Nat) × List (Int × Nat)
  | [] => (hist, [])
  | m :: ms =>
    let r := alertTick hist m
    let rest := alertRun r.1 ms
    (rest.1, r.2.toList ++ rest.2)

/-! ## Machine State Machine (`update_machine_status` and the machine
control endpoints, `main.py` 180-217) -/

/-- `update_machine_status` (`main.py` 180-191), the store/row part:
set the status; `running` additionally locks the machine and stamps
`last_tick_time`; `completed` unlocks it.  (The best-effort external
ERP status request is outside the store model.) -/
def update_machine_status (now : Int) (m : Machine) (new_status : String) : Machine :=
  let m1 : Machine := { m with status := new_status }
  if new_status == "running" then
    { m1 with is_locked := true, last_tick_time := some now }
  else if new_status == "completed" then
    { m1 with is_locked := false }
  else m1

/-- `get_machine` (`main.py` 174-175): index of the first machine row
with the given id at the given location. -/
def get_machine (st : Store) (location : String) (machine_id : Int) : Option Nat :=
  findFirstIdx (fun m => m.id == machine_id && m.location == location) st.machines

/-- `pause_machine` (`main.py` 201-209): if the machine exists, set its
status to `"paused"`; nothing else changes. -/
def pause_machine (st : Store) (location : String) (machine_id : Int) : Store :=
  match get_machine st location machine_id with
  | none => st
  | some i =>
    { st with machines :=
        st.machines.set i { st.machines.getD i default with status := "paused" } }

/-- `start_machine` (`main.py` 193-199): requires an existing machine
with a truthy work order, then transitions it to `"running"`. -/
def start_machine (now : Int) (st : Store) (location : String) (machine_id : Int) : Store :=
  match get_machine st location machine_id with
  | none => st
  | some i =>
    let m := st.machines.getD i default
    if !(optStrTruthy m.work_order) then st
    else { st with machines := st.machines.set i (update_machine_status now m "running") }

/-- `stop_machine` (`main.py` 211-217): transition an existing machine
to `"stopped"`. -/
def stop_machine (now : Int) (st : Store) (location : String) (machine_id : Int) : Store :=
  match get_machine st location machine_id with
  | none => st
  | some i =>
    { st with machines :=
        st.machines.set i (update_machine_status now (st.machines.getD i default) "stopped") }

/-! ## Assignment Engine (`auto_assign_work_orders`, `erpnext_sync.py`
88-182) -/

/-- The free-machine filter of `auto_assign_work_orders`
(`erpnext_sync.py` 126-130): same location as the work order, not
locked, status in `{free, paused, stopped}`. -/
def isCandidate (wo : WorkOrder) (m : Machine) : Bool :=
  some m.location == wo.custom_location && !m.is_locked &&
    (m.status == "free" || m.status == "paused" || m.status == "stopped")

/-- Pipe-size preference predicate (`erpnext_sync.py` 137-140). -/
def pipeMatches (wo : WorkOrder) (m : Machine) : Bool :=
  m.pipe_size == wo.custom_pipe_size

/-- Index of the machine `auto_assign_work_orders` selects: the first
candidate whose pipe size matches, else the first candidate
(`erpnext_sync.py` 136-143); `none` when there is no candidate at all
(`erpnext_sync.py` 132-133). -/
def selectIdx (wo : WorkOrder) (ms : List Machine) : Option Nat :=
  match findFirstIdx (fun m => isCandidate wo m && pipeMatches wo m) ms with
  | some i => some i
  | none => findFirstIdx (isCandidate wo) ms

/-- The machine mutation of a successful assignment (`erpnext_sync.py`
145-152). -/
def assignFields (wo : WorkOrder) (m : Machine) : Machine :=
  { m with erpnext_work_order_id := some wo.name, work_order := some wo.name,
           pipe_size := wo.custom_pipe_size, target_qty := wo.qty,
           produced_qty := wo.produced_qty, status := "paused", is_locked := true }

/-- The metadata upsert of a successful assignment (`erpnext_sync.py`
154-170): update the first record for the work order, or append a
fresh `Assigned` record. -/
def upsertMeta (now : Int) (woName : String) (machine_id : Int)
    (metas : List ERPNextMetadata) : List ERPNextMetadata :=
  match findFirstIdx (fun mt => mt.work_order == woName) metas with
  | none => metas ++ [⟨machine_id, woName, "Assigned", none, now⟩]
  | some j =>
    metas.set j
      { metas.getD j default with machine_id := machine_id,
                                  erp_status := "Assigned", last_synced := now }

/-- The skip guards of `auto_assign_work_orders` (`erpnext_sync.py`
105-123): already `In Process`, ERP already assigned a machine, or a
local machine already carries this work order's ERP id. -/
def skipWorkOrder (st : Store) (wo : WorkOrder) : Bool :=
  wo.status == "In Process" || optStrTruthy wo.custom_machine_id ||
    st.machines.any (fun m => m.erpnext_work_order_id == some wo.name)

/-- Processing of a single work order inside `auto_assign_work_orders`
(`erpnext_sync.py` 101-173): skip, or mutate the selected machine and
upsert the assignment record. -/
def assignStep (now : Int) (st : Store) (wo : WorkOrder) : Store :=
  if skipWorkOrder st wo then st
  else
    match selectIdx wo st.machines with
    | none => st
    | some i =>
      let sel := st.machines.getD i default
      { st with machines := st.machines.set i (assignFields wo sel),
                metas := upsertMeta now wo.name sel.id st.metas }

/-- `auto_assign_work_orders` over a fetched batch of work orders, in
source order. -/
def auto_assign_work_orders (now : Int) (wos : List WorkOrder) (st : Store) : Store :=
  wos.foldl (assignStep now) st

/-- `auto_assign_work_orders` with an injected store failure while
processing the work order at position `failAt`: each successful
assignment is committed individually (`db.commit()` inside the loop,
`erpnext_sync.py` 172), and an error carries the last committed store
out to the `except` handler. -/
def assignRunExc (now : Int) (failAt : Option Nat) :
    List WorkOrder → Store → Nat → Except Store Store
  | [], st, _ => Except.ok st
  | wo :: rest, st, i =>
    let pending := assignStep now st wo
    if failAt == some i then Except.error st
    else assignRunExc now failAt rest pending (i + 1)

/-- The whole guarded `auto_assign_work_orders` call: the `except`
handlers (`erpnext_sync.py` 175-180) roll back the failed unit of work
and return normally with the committed store. -/
def auto_assign_guarded (now : Int) (failAt : Option Nat)
    (wos : List WorkOrder) (st : Store) : Store :=
  match assignRunExc now failAt wos st 0 with
  | Except.ok s => s
  | Except.error s => s

/-! ## Concrete fixtures used by witnesses and counterexamples -/

/-- A running machine mid-job (fields: id, location, name, status,
is_locked, work_order, erpnext_work_order_id, pipe_size, target_qty,
produced_qty, seconds_per_meter, last_tick_time). -/
def mRunning : Machine :=
  ⟨1, "X", "M1", "running", true, some "WO1", some "WO1", some "20", 100, 3, some 20, some 0⟩

/-- A paused, unlocked machine still carrying the ERP id of work order
`WO1` from an earlier assignment. -/
def mStale : Machine :=
  ⟨1, "X", "A", "paused", false, none, some "WO1", some "20", 0, 0, none, none⟩

/-- A free machine with a non-matching pipe size. -/
def mFree : Machine :=
  ⟨2, "X", "B", "free", false, none, none, some "99", 0, 0, none, none⟩

/-- Work order `WO1`, unassigned, at location `X`, pipe size `20`. -/
def woOne : WorkOrder := ⟨"WO1", "Not Started", none, some "X", some "20", 5, 0⟩

/-- Work order `WO2`, unassigned, at location `X`, pipe size `20`. -/
def woTwo : WorkOrder := ⟨"WO2", "Not Started", none, some "X", some "20", 5, 0⟩

/-- Store holding `mStale` and `mFree` and nothing else. -/
def stStale : Store := ⟨[mStale, mFree], [], []⟩

/-- A work order whose externally reported `produced_qty` exceeds its
`qty`. -/
def woOver : WorkOrder := ⟨"WO9", "Not Started", none, some "X", some "20", 5, 7⟩

/-- Store holding one idle free machine at location `X`. -/
def stIdle : Store :=
  ⟨[⟨1, "X", "A", "free", false, none, none, some "20", 100, 0, some 20, none⟩], [], []⟩

/-- Store holding the running machine `mRunning` and its record. -/
def stRun : Store := ⟨[⟨1, "X", "M1", "running", true, some "WO1", some "WO1", some "20", 100, 3, some 20, some 0⟩], [⟨1, "WO1", "Assigned", none, 0⟩], []⟩

/-- A running machine one unit short of its target. -/
def mAlmost : Machine :=
  ⟨1, "X", "M1", "running", true, some "WO1", some "WO1", some "20", 100, 99, some 20, some 0⟩

/-- The assignment record for `WO1` on machine 1. -/
def metaOne : ERPNextMetadata := ⟨1, "WO1", "Assigned", none, 0⟩

/-- The running machine at 95% progress. -/
def m95 : Machine :=
  ⟨1, "X", "M1", "running", true, some "WO1", some "WO1", some "20", 100, 95, some 20, some 0⟩

/-- The same machine observed at 80% progress. -/
def m80 : Machine := { m95 with produced_qty := 80 }

/-- The same machine observed at 70% progress. -/
def m70 : Machine := { m95 with produced_qty := 70 }

/-- The lock invariant of the spec: a running machine is locked. -/
abbrev LockInv (m : Machine) : Prop := m.status = "running" → m.is_locked = true

/-- The progress invariant of the spec: `produced_qty ≤ target_qty`. -/
abbrev ProdInv (m : Machine) : Prop := m.produced_qty ≤ m.target_qty

/-- Every machine carrying the ERP id of one of the incoming work
orders is locked: the hypothesis under which assignment is
idempotent. -/
abbrev LockedGuard (wos : List WorkOrder) (st : Store) : Prop :=
  ∀ m ∈ st.machines, ∀ wo ∈ wos,
    m.erpnext_work_order_id = some wo.name → m.is_locked = true

/-- A work order is permanently skipped in a store: an inherent skip
(`In Process` or an ERP-side machine id), a locked machine carrying
its ERP id, or no candidate machine at its location. -/
def SkipStable (st : Store) (wo : WorkOrder) : Prop :=
  (wo.status == "In Process" || optStrTruthy wo.custom_machine_id) = true ∨
  (∃ m ∈ st.machines, m.erpnext_work_order_id = some wo.name ∧ m.is_locked = true) ∨
  (∀ m ∈ st.machines, isCandidate wo m = false)

/-! ## Lemmas about `findFirstIdx` -/

theorem findFirstIdx_some {α : Type} [Inhabited α] {p : α → Bool} {l : List α}
    {i : Nat} (h : findFirstIdx p l = some i) :
    i < l.length ∧ p (l.getD i default) = true := by
  induction l generalizing i with
  | nil => simp [findFirstIdx] at h
  | cons a as ih =>
    rw [findFirstIdx] at h
    by_cases hp : p a = true
    · rw [if_pos hp] at h
      obtain rfl : i = 0 := by simpa using h.symm
      exact ⟨by simp, by simpa using hp⟩
    · rw [if_neg hp] at h
      obtain ⟨j, hj, rfl⟩ := Option.map_eq_some'.mp h
      obtain ⟨hlt, hpj⟩ := ih hj
      exact ⟨by simpa using Nat.succ_lt_succ hlt, by simpa using hpj⟩

theorem findFirstIdx_eq_none {α : Type} {p : α → Bool} {l : List α} :
    findFirstIdx p l = none ↔ ∀ a ∈ l, p a = false := by
  induction l with
  | nil => simp [findFirstIdx]
  | cons a as ih =>
    rw [findFirstIdx]
    by_cases hp : p a = true
    · simp [hp]
    · simp only [if_neg hp, Option.map_eq_none', ih]
      constructor
      · intro h b hb
        rcases List.mem_cons.mp hb with rfl | hb
        · exact Bool.eq_false_iff.mpr hp
        · exact h b hb
      · intro h b hb
        exact h b (List.mem_cons_of_mem _ hb)

/-- A member of `l.set i b` distinct from what sits at index `i` was
already a member of `l`. -/
theorem mem_set_of_getD_ne {α : Type} [Inhabited α] {l : List α} {a b : α} {i : Nat}
    (h : a ∈ l) (hne : l.getD i default ≠ a) : a ∈ l.set i b := by
  obtain ⟨j, hj, rfl⟩ := List.mem_iff_getElem.mp h
  rcases eq_or_ne i j with rfl | hij
  · exact absurd (List.getD_eq_getElem l default hj) hne
  · exact List.mem_iff_getElem.mpr
      ⟨j, by simpa using hj, by rw [List.getElem_set_ne hij]⟩

theorem getD_set_self {α : Type} [Inhabited α] {l : List α} {b : α} {i : Nat}
    (hi : i < l.length) : (l.set i b).getD i default = b := by
  rw [List.getD_eq_getElem _ _ (by simpa using hi)]
  exact List.getElem_set_self (by simpa using hi)

theorem mem_set_self {α : Type} {l : List α} {b : α} {i : Nat}
    (hi : i < l.length) : b ∈ l.set i b := by
  exact List.mem_iff_getElem.mpr
    ⟨i, by simpa using hi, List.getElem_set_self (by simpa using hi)⟩

/-! ## Lemmas about the Progress Simulator -/

/-- When all guards pass, `meterTick` takes the advance branch. -/
theorem meterTick_advance (now : Int) (m : Machine) {spm t : Int}
    (hspm : m.seconds_per_meter = some spm) (hspm0 : spm ≠ 0)
    (hwo : optStrTruthy m.work_order = true) (ht : m.last_tick_time = some t)
    (hel : spm ≤ now - t) (hlt : m.produced_qty < m.target_qty) :
    meterTick now m =
      if m.produced_qty + 1 ≥ m.target_qty then
        ⟨{ m with produced_qty := m.target_qty, status := "completed",
                  is_locked := false, last_tick_time := some now },
         some ⟨m.id, m.work_order.getD "", m.pipe_size, 1, now⟩, some "Completed"⟩
      else
        ⟨{ m with produced_qty := m.produced_qty + 1, last_tick_time := some now },
         some ⟨m.id, m.work_order.getD "", m.pipe_size, 1, now⟩, some "In Progress"⟩ := by
  have h1 : optIntTruthy m.seconds_per_meter = true := by
    rw [hspm]; simpa [optIntTruthy] using hspm0
  rw [meterTick, h1, hwo, ht]
  simp only [Bool.not_true, Bool.or_self, Bool.false_or, if_neg (by simp : ¬(false = true))]
  rw [if_pos ⟨by rw [hspm]; simpa using hel, hlt⟩]

/-- The unconditional per-tick bound: one `meterTick` never advances
`produced_qty` by more than one unit. -/
theorem meterTick_le_succ (now : Int) (m : Machine) :
    (meterTick now m).machine.produced_qty ≤ m.produced_qty + 1 := by
  rw [meterTick]
  split
  · simp
  · split
    · simp
    · dsimp only
      split
      · split
        · dsimp only
          omega
        · dsimp only
          omega
      · dsimp only
        omega

/-! ## Claim theorems: Progress Simulator -/

/-- C1: for every running machine with a work order and a set
`seconds_per_meter`, one Progress Simulator tick advances
`produced_qty` by at most 1, regardless of how much time has elapsed
since `last_tick_time`: if `elapsed ≥ k * seconds_per_meter` for any
`k ≥ 1` and `produced_qty < target_qty`, exactly one unit is added,
not `k`. -/
theorem single_unit_per_tick (now : Int) (m : Machine) (k spm t : Int)
    (hrun : m.status = "running") (hk : 1 ≤ k)
    (hspm : m.seconds_per_meter = some spm) (hpos : 0 < spm)
    (hwo : optStrTruthy m.work_order = true) (ht : m.last_tick_time = some t)
    (helapsed : k * spm ≤ now - t) (hlt : m.produced_qty < m.target_qty) :
    (meterTick now m).machine.produced_qty = m.produced_qty + 1 ∧
      ∀ (now2 : Int) (m2 : Machine),
        (meterTick now2 m2).machine.produced_qty ≤ m2.produced_qty + 1 := by
  have hel : spm ≤ now - t :=
    le_trans (le_mul_of_one_le_left (le_of_lt hpos) hk) helapsed
  refine ⟨?_, fun now2 m2 => meterTick_le_succ now2 m2⟩
  rw [meterTick_advance now m hspm (ne_of_gt hpos) hwo ht hel hlt]
  split
  · dsimp only
    omega
  · rfl

/-- Witness for C1: elapsed 100 is five times `seconds_per_meter` 20,
yet exactly one unit is added. -/
theorem single_unit_per_tick_witness :
    (meterTick 100 mRunning).machine.produced_qty = mRunning.produced_qty + 1 :=
  (single_unit_per_tick 100 mRunning 5 20 0 (by decide) (by decide) (by decide)
    (by decide) (by decide) (by decide) (by decide) (by decide)).1

/-- C5: a running machine at `produced_qty = target_qty - 1` with
elapsed ≥ `seconds_per_meter` ends the tick at exactly
`produced_qty = target_qty`, status `completed`, unlocked, and the
matching assignment record's `erp_status` becomes `Completed`. -/
theorem clamp_and_complete (now : Int) (m : Machine) (spm t : Int) (w : String)
    (metas : List ERPNextMetadata) (j : Nat)
    (hrun : m.status = "running")
    (hspm : m.seconds_per_meter = some spm) (hpos : 0 < spm)
    (hwo : m.work_order = some w) (hwt : optStrTruthy m.work_order = true)
    (ht : m.last_tick_time = some t) (hel : spm ≤ now - t)
    (hprod : m.produced_qty = m.target_qty - 1)
    (hj : findFirstIdx (fun mt => mt.work_order == w) metas = some j) :
    (meterTick now m).machine.produced_qty = m.target_qty ∧
    (meterTick now m).machine.status = "completed" ∧
    (meterTick now m).machine.is_locked = false ∧
    (meterTick now m).metaStatus = some "Completed" ∧
    ((applyMetaStatus now w "Completed" metas).getD j default).erp_status = "Completed" := by
  have hlt : m.produced_qty < m.target_qty := by omega
  rw [meterTick_advance now m hspm (ne_of_gt hpos) hwt ht hel hlt]
  rw [if_pos (by omega : m.produced_qty + 1 ≥ m.target_qty)]
  refine ⟨rfl, rfl, rfl, rfl, ?_⟩
  rw [applyMetaStatus, hj]
  have hjlen : j < metas.length := (findFirstIdx_some hj).1
  rw [getD_set_self hjlen]

/-- Witness for C5 at a concrete machine one unit short of target. -/
theorem clamp_and_complete_witness :
    (meterTick 100 mAlmost).machine.produced_qty = mAlmost.target_qty ∧
    (meterTick 100 mAlmost).machine.status = "completed" ∧
    (meterTick 100 mAlmost).machine.is_locked = false ∧
    (meterTick 100 mAlmost).metaStatus = some "Completed" ∧
    ((applyMetaStatus 100 "WO1" "Completed" [metaOne]).getD 0 default).erp_status
      = "Completed" :=
  clamp_and_complete 100 mAlmost 20 0 "WO1" [metaOne] 0 (by decide) (by decide)
    (by decide) (by decide) (by decide) (by decide) (by decide) (by decide) (by decide)

/-! ## Claim theorems: machine controls -/

/-- C10: for every machine present in the store, `pause_machine` sets
its status to `paused` with no precondition on the current status, and
changes nothing else: all other fields of the machine, every other
machine, and the assignment records and logs are untouched. -/
theorem pause_sets_status_only (st : Store) (location : String) (machine_id : Int)
    (i : Nat) (hi : get_machine st location machine_id = some i) :
    (pause_machine st location machine_id).machines.getD i default =
      { st.machines.getD i default with status := "paused" } ∧
    (∀ j : Nat, j ≠ i →
      (pause_machine st location machine_id).machines.getD j default =
        st.machines.getD j default) ∧
    (pause_machine st location machine_id).metas = st.metas ∧
    (pause_machine st location machine_id).logs = st.logs := by
  have hlen : i < st.machines.length := (findFirstIdx_some hi).1
  rw [pause_machine, hi]
  refine ⟨getD_set_self hlen, ?_, rfl, rfl⟩
  intro j hj
  rcases lt_or_ge j st.machines.length with hjl | hjl
  · rw [List.getD_eq_getElem _ _ (by simpa using hjl),
      List.getD_eq_getElem _ _ hjl, List.getElem_set_ne (Ne.symm hj)]
  · rw [List.getD_eq_default _ _ (by simpa using hjl), List.getD_eq_default _ _ hjl]

/-- Witness for C10: pausing the stale machine of `stStale` (status
`paused`, no work order — no precondition is required). -/
theorem pause_sets_status_only_witness :
    (pause_machine stStale "X" 1).machines.getD 0 default =
      { stStale.machines.getD 0 default with status := "paused" } :=
  (pause_sets_status_only stStale "X" 1 0 (by decide)).1

/-! ## Claim theorems: Alert Engine -/

theorem alertLevel_of_lt_75 {p : ℚ} (h : p < 75) : alertLevel p = 0 := by
  rw [alertLevel, if_neg (by linarith), if_neg (by linarith), if_neg (by linarith)]

/-- The alert-engine step for an eligible machine, as a single
equation: the history entry and the emission, by cases on the computed
level. -/
theorem alertTick_eq (hist : Int → Nat) (m : Machine)
    (htq : m.target_qty > 0) (hwo : optStrTruthy m.work_order = true)
    (hrun : m.status = "running") :
    alertTick hist m =
      if alertLevel (percentOf m) > 0 ∧ alertLevel (percentOf m) ≠ hist m.id then
        (fun k => if k == m.id then alertLevel (percentOf m) else hist k,
         some (m.id, alertLevel (percentOf m)))
      else if percentOf m < 75 then
        (fun k => if k == m.id then 0 else hist k, none)
      else (hist, none) := by
  have g1 : decide (m.target_qty > 0) = true := decide_eq_true htq
  have g2 : (m.status == "running") = true := by
    rw [hrun]; exact beq_self_eq_true _
  rw [alertTick, g1, hwo, g2]
  rfl

/-- C3 as stated is false (counterexample): after an alert at level 2
(95%), a reading at 80% computes level 1 — equal-or-lower than the
last emitted level — and the engine still emits an alert, because the
code tests `alert_level != last_level`, not an upward change. -/
theorem alert_emits_on_downward_change :
    ((alertTick (fun _ => 0) m95).1) 1 = 2 ∧
    alertLevel (percentOf m80) = 1 ∧
    (alertTick ((alertTick (fun _ => 0) m95).1) m80).2 = some (1, 1) := by
  have h95 : percentOf m95 = 95 := by norm_num [percentOf, m95]
  have h80 : percentOf m80 = 80 := by norm_num [percentOf, m80, m95]
  have l95 : alertLevel (95 : ℚ) = 2 := by norm_num [alertLevel]
  have l80 : alertLevel (80 : ℚ) = 1 := by norm_num [alertLevel]
  have e1 := alertTick_eq (fun _ => 0) m95 (by decide) (by decide) (by decide)
  rw [h95, l95, if_pos (by simp)] at e1
  have h1 : ((alertTick (fun _ => 0) m95).1) 1 = 2 := by
    rw [e1]; rfl
  have hh : ((alertTick (fun _ => 0) m95).1) m80.id = 2 := h1
  have e2 := alertTick_eq ((alertTick (fun _ => 0) m95).1) m80
    (by decide) (by decide) (by decide)
  rw [h80, l80, hh, if_pos (by simp)] at e2
  refine ⟨h1, by rw [h80]; exact l80, ?_⟩
  rw [e2]
  rfl

/-- C3 amended: for every machine reading the Alert Engine accepts, an
alert is emitted exactly when the computed level is nonzero and
*differs* from the last emitted level — any change, downward included;
no alert is emitted when the level equals the last emitted level. -/
theorem alert_emits_iff_level_changed (hist : Int → Nat) (m : Machine)
    (htq : m.target_qty > 0) (hwo : optStrTruthy m.work_order = true)
    (hrun : m.status = "running") :
    (alertTick hist m).2 =
      if alertLevel (percentOf m) > 0 ∧ alertLevel (percentOf m) ≠ hist m.id then
        some (m.id, alertLevel (percentOf m))
      else none := by
  rw [alertTick_eq hist m htq hwo hrun]
  split
  · rfl
  · split
    · rfl
    · rfl

/-- Witness for the amended C3 at the 95% reading with empty history:
level 2 differs from last level 0, so an alert is emitted. -/
theorem alert_emits_iff_level_changed_witness :
    (alertTick (fun _ => 0) m95).2 =
      if alertLevel (percentOf m95) > 0 ∧
          alertLevel (percentOf m95) ≠ (fun _ : Int => (0 : Nat)) m95.id then
        some (m95.id, alertLevel (percentOf m95))
      else none :=
  alert_emits_iff_level_changed (fun _ => 0) m95 (by decide) (by decide) (by decide)

/-- C8: once an eligible machine's percent drops below 75 the stored
level is reset to 0 (and nothing is emitted), so that any later
reading computing a nonzero level — for example after reassignment to
a fresh work order — emits a fresh alert. -/
theorem alert_reset_below_75 (hist : Int → Nat) (m m2 : Machine)
    (htq : m.target_qty > 0) (hwo : optStrTruthy m.work_order = true)
    (hrun : m.status = "running") (hp : percentOf m < 75)
    (htq2 : m2.target_qty > 0) (hwo2 : optStrTruthy m2.work_order = true)
    (hrun2 : m2.status = "running") (hl2 : alertLevel (percentOf m2) > 0) :
    (alertTick hist m).1 m.id = 0 ∧ (alertTick hist m).2 = none ∧
      ∀ hist2 : Int → Nat, hist2 m2.id = 0 →
        (alertTick hist2 m2).2 = some (m2.id, alertLevel (percentOf m2)) := by
  have hz := alertLevel_of_lt_75 hp
  rw [alertTick_eq hist m htq hwo hrun, hz]
  rw [if_neg (by simp), if_pos hp]
  refine ⟨by simp, rfl, ?_⟩
  intro hist2 h0
  rw [alertTick_eq hist2 m2 htq2 hwo2 hrun2, h0,
    if_pos ⟨hl2, Nat.pos_iff_ne_zero.mp hl2⟩]

/-- Witness for C8: a 70% reading resets the entry for machine 1 to 0
and a later 95% reading emits a fresh level-2 alert. -/
theorem alert_reset_below_75_witness :
    (alertTick (fun _ => 3) m70).1 m70.id = 0 ∧
    (alertTick (fun _ => 3) m70).2 = none ∧
    ∀ hist2 : Int → Nat, hist2 m95.id = 0 →
      (alertTick hist2 m95).2 = some (m95.id, alertLevel (percentOf m95)) :=
  alert_reset_below_75 (fun _ => 3) m70 m95 (by decide) (by decide) (by decide)
    (by norm_num [percentOf, m70, m95]) (by decide) (by decide) (by decide)
    (by rw [show percentOf m95 = 95 by norm_num [percentOf, m95]]
        norm_num [alertLevel])

/-! ## Lemmas: the lock and progress invariants under each operation -/

theorem lockInv_of_status_ne {m : Machine} (h : m.status ≠ "running") : LockInv m :=
  fun hr => absurd hr h

/-- `update_machine_status` establishes the lock invariant for every
target status (running locks; any other status is not `running`). -/
theorem lockInv_update_machine_status (now : Int) (m : Machine) (s : String) :
    LockInv (update_machine_status now m s) := by
  rw [update_machine_status]
  by_cases h1 : (s == "running") = true
  · rw [if_pos h1]
    intro _
    rfl
  · by_cases h2 : (s == "completed") = true
    · rw [if_neg h1, if_pos h2]
      exact lockInv_of_status_ne (by simpa using h1)
    · rw [if_neg h1, if_neg h2]
      exact lockInv_of_status_ne (by simpa using h1)

/-- `meterTick` preserves the lock invariant (completion unlocks but
also leaves `running`). -/
theorem lockInv_meterTick (now : Int) (m : Machine) (h : LockInv m) :
    LockInv (meterTick now m).machine := by
  rw [meterTick]
  split
  · exact h
  · split
    · exact fun hr => h hr
    · dsimp only
      split
      · split
        · exact fun hc =>
            absurd (show ("completed" : String) = "running" from hc) (by decide)
        · exact fun hr => h hr
      · exact h

/-- Machines of the store after one simulator tick. -/
theorem tickStore_machines (now : Int) (st : Store) :
    (tickStore now st).machines =
      st.machines.map
        (fun m => if m.status == "running" then (meterTick now m).machine else m) := by
  rw [tickStore]
  dsimp only
  rw [List.map_map]
  congr 1
  funext m
  by_cases hb : (m.status == "running") = true
  · simp [Function.comp, hb]
  · simp [Function.comp, hb]

theorem lockInv_tickStore (now : Int) (st : Store)
    (h : ∀ m ∈ st.machines, LockInv m) :
    ∀ m' ∈ (tickStore now st).machines, LockInv m' := by
  intro m' hm'
  rw [tickStore_machines] at hm'
  obtain ⟨m, hm, rfl⟩ := List.mem_map.mp hm'
  by_cases hb : (m.status == "running") = true
  · rw [if_pos hb]
    exact lockInv_meterTick now m (h m hm)
  · rw [if_neg hb]
    exact h m hm

theorem lockInv_assignStep (now : Int) (st : Store) (wo : WorkOrder)
    (h : ∀ m ∈ st.machines, LockInv m) :
    ∀ m' ∈ (assignStep now st wo).machines, LockInv m' := by
  intro m' hm'
  rw [assignStep] at hm'
  split at hm'
  · exact h m' hm'
  · split at hm'
    · exact h m' hm'
    · dsimp only at hm'
      rcases List.mem_or_eq_of_mem_set hm' with hmem | rfl
      · exact h m' hmem
      · exact fun hc =>
          absurd (show ("paused" : String) = "running" from hc) (by decide)

theorem lockInv_auto_assign (now : Int) (wos : List WorkOrder) (st : Store)
    (h : ∀ m ∈ st.machines, LockInv m) :
    ∀ m' ∈ (auto_assign_work_orders now wos st).machines, LockInv m' := by
  induction wos generalizing st with
  | nil => exact h
  | cons w rest ih => exact ih (assignStep now st w) (lockInv_assignStep now st w h)

theorem lockInv_pause_machine (st : Store) (location : String) (machine_id : Int)
    (h : ∀ m ∈ st.machines, LockInv m) :
    ∀ m' ∈ (pause_machine st location machine_id).machines, LockInv m' := by
  intro m' hm'
  rw [pause_machine] at hm'
  split at hm'
  · exact h m' hm'
  · rcases List.mem_or_eq_of_mem_set hm' with hmem | rfl
    · exact h m' hmem
    · exact fun hc =>
        absurd (show ("paused" : String) = "running" from hc) (by decide)

theorem lockInv_start_machine (now : Int) (st : Store) (location : String)
    (machine_id : Int) (h : ∀ m ∈ st.machines, LockInv m) :
    ∀ m' ∈ (start_machine now st location machine_id).machines, LockInv m' := by
  intro m' hm'
  rw [start_machine] at hm'
  split at hm'
  · exact h m' hm'
  · dsimp only at hm'
    split at hm'
    · exact h m' hm'
    · rcases List.mem_or_eq_of_mem_set hm' with hmem | rfl
      · exact h m' hmem
      · exact lockInv_update_machine_status now _ "running"

theorem lockInv_stop_machine (now : Int) (st : Store) (location : String)
    (machine_id : Int) (h : ∀ m ∈ st.machines, LockInv m) :
    ∀ m' ∈ (stop_machine now st location machine_id).machines, LockInv m' := by
  intro m' hm'
  rw [stop_machine] at hm'
  split at hm'
  · exact h m' hm'
  · rcases List.mem_or_eq_of_mem_set hm' with hmem | rfl
    · exact h m' hmem
    · exact lockInv_update_machine_status now _ "stopped"

/-! ## Claim theorems: lock invariant (C7) -/

/-- C7: `is_locked = true` whenever `status = running`, and
`is_locked = false` immediately after a transition to `completed`
(both via `update_machine_status` and via a completing simulator
tick); the invariant is preserved by every exposed operation:
assignment, each status transition (`update_machine_status` for any
target status, plus the pause/start/stop endpoints), and the Progress
Simulator tick. -/
theorem lock_invariant_all_operations (now : Int) (st : Store) (wos : List WorkOrder)
    (location : String) (machine_id : Int) (m : Machine) (s : String)
    (hinv : ∀ m' ∈ st.machines, LockInv m') :
    LockInv (update_machine_status now m s) ∧
    (update_machine_status now m "completed").is_locked = false ∧
    ((meterTick now m).machine.status = "completed" →
      m.status = "completed" ∨ (meterTick now m).machine.is_locked = false) ∧
    (∀ m' ∈ (tickStore now st).machines, LockInv m') ∧
    (∀ m' ∈ (auto_assign_work_orders now wos st).machines, LockInv m') ∧
    (∀ m' ∈ (pause_machine st location machine_id).machines, LockInv m') ∧
    (∀ m' ∈ (start_machine now st location machine_id).machines, LockInv m') ∧
    (∀ m' ∈ (stop_machine now st location machine_id).machines, LockInv m') := by
  refine ⟨lockInv_update_machine_status now m s, ?_, ?_,
    lockInv_tickStore now st hinv, lockInv_auto_assign now wos st hinv,
    lockInv_pause_machine st location machine_id hinv,
    lockInv_start_machine now st location machine_id hinv,
    lockInv_stop_machine now st location machine_id hinv⟩
  · rfl
  · rw [meterTick]
    split
    · exact fun hc => Or.inl hc
    · split
      · exact fun hc => Or.inl hc
      · dsimp only
        split
        · split
          · exact fun _ => Or.inr rfl
          · exact fun hc => Or.inl hc
        · exact fun hc => Or.inl hc

/-- Witness for C7 at a concrete store satisfying the invariant. -/
theorem lock_invariant_all_operations_witness :
    (update_machine_status 0 mRunning "completed").is_locked = false :=
  (lock_invariant_all_operations 0 stStale [woOne] "X" 1 mRunning "completed"
    (by decide)).2.1

/-! ## Claim theorems: `produced_qty ≤ target_qty` (C4) -/

theorem prodInv_meterTick (now : Int) (m : Machine) (h : ProdInv m) :
    ProdInv (meterTick now m).machine := by
  rw [meterTick]
  split
  · exact h
  · split
    · exact h
    · dsimp only
      split
      · rename_i hcond
        split
        · exact le_refl m.target_qty
        · exact Int.add_one_le_iff.mpr hcond.2
      · exact h

theorem prodInv_tickStore (now : Int) (st : Store)
    (h : ∀ m ∈ st.machines, ProdInv m) :
    ∀ m' ∈ (tickStore now st).machines, ProdInv m' := by
  intro m' hm'
  rw [tickStore_machines] at hm'
  obtain ⟨m, hm, rfl⟩ := List.mem_map.mp hm'
  by_cases hb : (m.status == "running") = true
  · rw [if_pos hb]
    exact prodInv_meterTick now m (h m hm)
  · rw [if_neg hb]
    exact h m hm

theorem prodInv_assignStep (now : Int) (st : Store) (wo : WorkOrder)
    (hq : wo.produced_qty ≤ wo.qty) (h : ∀ m ∈ st.machines, ProdInv m) :
    ∀ m' ∈ (assignStep now st wo).machines, ProdInv m' := by
  intro m' hm'
  rw [assignStep] at hm'
  split at hm'
  · exact h m' hm'
  · split at hm'
    · exact h m' hm'
    · dsimp only at hm'
      rcases List.mem_or_eq_of_mem_set hm' with hmem | rfl
      · exact h m' hmem
      · exact hq

theorem prodInv_auto_assign (now : Int) (wos : List WorkOrder) (st : Store)
    (hq : ∀ wo ∈ wos, wo.produced_qty ≤ wo.qty)
    (h : ∀ m ∈ st.machines, ProdInv m) :
    ∀ m' ∈ (auto_assign_work_orders now wos st).machines, ProdInv m' := by
  induction wos generalizing st with
  | nil => exact h
  | cons w rest ih =>
    exact ih (assignStep now st w)
      (fun wo hwo => hq wo (List.mem_cons_of_mem _ hwo))
      (prodInv_assignStep now st w (hq w (List.mem_cons_self _ _)) h)

/-- C4 as stated is false (counterexample): the assignment pass copies
`produced_qty` from the external work order without clamping, so a
work order reporting `produced_qty = 7` with `qty = 5` leaves the
machine violating `produced_qty ≤ target_qty` immediately after
assignment, although the store satisfied the invariant before. -/
theorem produced_exceeds_target_after_assignment :
    (∀ m ∈ stIdle.machines, ProdInv m) ∧
    ¬ ProdInv ((auto_assign_work_orders 0 [woOver] stIdle).machines.getD 0 default) := by
  decide

/-- C4 amended: provided every work order in the batch reports
`produced_qty ≤ qty`, the invariant `produced_qty ≤ target_qty` holds
for every machine after the assignment pass, and one Progress
Simulator tick preserves it unconditionally. -/
theorem produced_le_target_invariant (now now2 : Int) (st st2 : Store)
    (wos : List WorkOrder)
    (hq : ∀ wo ∈ wos, wo.produced_qty ≤ wo.qty)
    (h1 : ∀ m ∈ st.machines, ProdInv m) (h2 : ∀ m ∈ st2.machines, ProdInv m) :
    (∀ m' ∈ (auto_assign_work_orders now wos st).machines, ProdInv m') ∧
    (∀ m' ∈ (tickStore now2 st2).machines, ProdInv m') :=
  ⟨prodInv_auto_assign now wos st hq h1, prodInv_tickStore now2 st2 h2⟩

/-- Witness for the amended C4 on concrete stores and a well-formed
work order. -/
theorem produced_le_target_invariant_witness :
    (∀ m' ∈ (auto_assign_work_orders 0 [woOne] stIdle).machines, ProdInv m') ∧
    (∀ m' ∈ (tickStore 100 stRun).machines, ProdInv m') :=
  produced_le_target_invariant 0 100 stIdle stRun [woOne]
    (by decide) (by decide) (by decide)

/-! ## Lemmas: candidate filtering and selection (C6) -/

/-- The first match of `q` inside `l.filter p` sits at the first index
of `l` satisfying `p && q`. -/
theorem find_filter_eq_findFirstIdx {α : Type} [Inhabited α] {p q : α → Bool}
    {l : List α} {x : α} (h : (l.filter p).find? q = some x) :
    ∃ i, i < l.length ∧
      findFirstIdx (fun a => p a && q a) l = some i ∧ l.getD i default = x := by
  induction l with
  | nil => simp at h
  | cons a as ih =>
    by_cases hp : p a = true
    · rw [List.filter_cons_of_pos hp] at h
      by_cases hq : q a = true
      · rw [List.find?_cons_of_pos _ hq] at h
        obtain rfl : a = x := by simpa using h
        refine ⟨0, by simp, ?_, rfl⟩
        rw [findFirstIdx, if_pos (by simp [hp, hq])]
      · rw [List.find?_cons_of_neg _ (by simpa using hq)] at h
        obtain ⟨i, hi, hf, hx⟩ := ih h
        refine ⟨i + 1, by simpa using Nat.succ_lt_succ hi, ?_, by simpa using hx⟩
        rw [findFirstIdx, if_neg (by simp [hq]), hf]
        rfl
    · rw [List.filter_cons_of_neg (by simpa using hp)] at h
      obtain ⟨i, hi, hf, hx⟩ := ih h
      refine ⟨i + 1, by simpa using Nat.succ_lt_succ hi, ?_, by simpa using hx⟩
      rw [findFirstIdx, if_neg (by simp [hp]), hf]
      rfl

/-- The head of `l.filter p` sits at the first index of `l`
satisfying `p`. -/
theorem filter_head_eq_findFirstIdx {α : Type} [Inhabited α] {p : α → Bool}
    {l : List α} {x : α} {rest : List α} (h : l.filter p = x :: rest) :
    ∃ i, i < l.length ∧ findFirstIdx p l = some i ∧ l.getD i default = x := by
  induction l with
  | nil => simp at h
  | cons a as ih =>
    by_cases hp : p a = true
    · rw [List.filter_cons_of_pos hp] at h
      obtain rfl : a = x := (List.cons.injEq _ _ _ _ ▸ h).1
      refine ⟨0, by simp, ?_, rfl⟩
      rw [findFirstIdx, if_pos hp]
    · rw [List.filter_cons_of_neg (by simpa using hp)] at h
      obtain ⟨i, hi, hf, hx⟩ := ih h
      refine ⟨i + 1, by simpa using Nat.succ_lt_succ hi, ?_, by simpa using hx⟩
      rw [findFirstIdx, if_neg hp, hf]
      rfl

theorem selectIdx_eq_none_iff (wo : WorkOrder) (ms : List Machine) :
    selectIdx wo ms = none ↔ ms.filter (isCandidate wo) = [] := by
  rw [selectIdx]
  constructor
  · intro h
    cases hfp : findFirstIdx (fun m => isCandidate wo m && pipeMatches wo m) ms with
    | some i => rw [hfp] at h; exact absurd h (by simp)
    | none =>
      rw [hfp] at h
      rw [List.filter_eq_nil_iff]
      intro a ha
      simp [findFirstIdx_eq_none.mp h a ha]
  · intro h
    have hall := List.filter_eq_nil_iff.mp h
    have h1 : findFirstIdx (isCandidate wo) ms = none :=
      findFirstIdx_eq_none.mpr (fun a ha => Bool.eq_false_iff.mpr (hall a ha))
    have h2 : findFirstIdx (fun m => isCandidate wo m && pipeMatches wo m) ms = none :=
      findFirstIdx_eq_none.mpr
        (fun a ha => by simp [Bool.eq_false_iff.mpr (hall a ha)])
    rw [h2, h1]

/-! ## Claim theorem: candidate set and selection rule (C6) -/

/-- C6: the candidate set is exactly `isCandidate` — machines at the
work order's location, not locked, with status in
{free, paused, stopped} (`erpnext_sync.py` 126-130) — and the machine
the assignment selects is the first candidate (in enumeration order)
whose `pipe_size` equals the work order's, or the first candidate
overall when no pipe size matches, or nothing when there is no
candidate. -/
theorem assignment_candidate_selection (wo : WorkOrder) (ms : List Machine) :
    (ms.filter (isCandidate wo) = [] → selectIdx wo ms = none) ∧
    (∀ x, (ms.filter (isCandidate wo)).find? (pipeMatches wo) = some x →
      ∃ i, i < ms.length ∧ selectIdx wo ms = some i ∧ ms.getD i default = x) ∧
    (∀ x rest, (ms.filter (isCandidate wo)).find? (pipeMatches wo) = none →
      ms.filter (isCandidate wo) = x :: rest →
      ∃ i, i < ms.length ∧ selectIdx wo ms = some i ∧ ms.getD i default = x) := by
  refine ⟨fun h => (selectIdx_eq_none_iff wo ms).mpr h, ?_, ?_⟩
  · intro x hx
    obtain ⟨i, hi, hf, hget⟩ := find_filter_eq_findFirstIdx hx
    exact ⟨i, hi, by rw [selectIdx, hf], hget⟩
  · intro x rest hnone hfil
    obtain ⟨i, hi, hf, hget⟩ := filter_head_eq_findFirstIdx hfil
    have h2 : findFirstIdx (fun m => isCandidate wo m && pipeMatches wo m) ms = none := by
      rw [findFirstIdx_eq_none]
      intro a ha
      by_cases hc : isCandidate wo a = true
      · have : a ∈ ms.filter (isCandidate wo) := List.mem_filter.mpr ⟨ha, hc⟩
        have := List.find?_eq_none.mp hnone a this
        simp [hc, Bool.eq_false_iff.mpr this]
      · simp [Bool.eq_false_iff.mpr hc]
    exact ⟨i, hi, by rw [selectIdx, h2, hf], hget⟩

/-- Witness for C6: with candidates `[mStale, mFree]` and work order
`woOne` (pipe `20`), the pipe-size match `mStale` is selected; for a
work order with pipe `77` and no match, the first candidate is
selected. -/
theorem assignment_candidate_selection_witness :
    ∃ i, i < 2 ∧ selectIdx woOne [mStale, mFree] = some i ∧
      [mStale, mFree].getD i default = mStale :=
  (assignment_candidate_selection woOne [mStale, mFree]).2.1 mStale (by decide)

/-! ## Lemmas: per-work-order commit and rollback (C9) -/

theorem assignRunExc_ok (now : Int) (wos : List WorkOrder) (st : Store) (i0 : Nat) :
    assignRunExc now none wos st i0 =
      Except.ok (wos.foldl (assignStep now) st) := by
  induction wos generalizing st i0 with
  | nil => rfl
  | cons w rest ih =>
    rw [assignRunExc, if_neg (fun hcon => Bool.noConfusion hcon)]
    exact ih (assignStep now st w) (i0 + 1)

theorem assignRunExc_fail (now : Int) (k : Nat) (wos : List WorkOrder)
    (st : Store) (i0 : Nat) (hk : k < wos.length) :
    assignRunExc now (some (i0 + k)) wos st i0 =
      Except.error ((wos.take k).foldl (assignStep now) st) := by
  induction wos generalizing st i0 k with
  | nil => simp at hk
  | cons w rest ih =>
    cases k with
    | zero =>
      rw [assignRunExc, if_pos (by simp)]
      rfl
    | succ j =>
      rw [assignRunExc, if_neg (by simp)]
      rw [show i0 + (j + 1) = (i0 + 1) + j from by omega]
      rw [ih j (assignStep now st w) (i0 + 1) (by simpa using Nat.lt_of_succ_lt_succ hk)]
      rw [List.take_succ_cons, List.foldl_cons]

/-! ## Claim theorem: individual commits survive a mid-batch failure (C9) -/

/-- C9: each successful assignment is committed individually, so a
store failure while processing the work order at position `k` leaves
exactly the assignments of the first `k` work orders committed — the
failing work order's partial mutations are rolled back — and the
guarded call still returns a store (the loop-level catch never lets
the failure terminate the periodic loop); with no failure the guarded
call equals the plain pass. -/
theorem assignment_commits_individually (now : Int) (wos : List WorkOrder)
    (st : Store) (k : Nat) (hk : k < wos.length) :
    auto_assign_guarded now (some k) wos st =
      auto_assign_work_orders now (wos.take k) st ∧
    auto_assign_guarded now none wos st = auto_assign_work_orders now wos st := by
  constructor
  · rw [auto_assign_guarded, show (some k : Option Nat) = some (0 + k) from by rw [Nat.zero_add],
      assignRunExc_fail now k wos st 0 hk]
    rfl
  · rw [auto_assign_guarded, assignRunExc_ok]
    rfl

/-- Witness for C9: a failure while processing the second work order
keeps the first one's committed assignment. -/
theorem assignment_commits_individually_witness :
    auto_assign_guarded 0 (some 1) [woOne, woTwo] stIdle =
      auto_assign_work_orders 0 ([woOne, woTwo].take 1) stIdle :=
  (assignment_commits_individually 0 [woOne, woTwo] stIdle 1 (by decide)).1

/-! ## Lemmas: assignment idempotence (C2) -/

theorem isCandidate_not_locked {wo : WorkOrder} {m : Machine}
    (h : isCandidate wo m = true) : m.is_locked = false := by
  rw [isCandidate] at h
  have := (Bool.and_eq_true _ _).mp ((Bool.and_eq_true _ _).mp h).1
  simpa using this.2

theorem selectIdx_some {wo : WorkOrder} {ms : List Machine} {i : Nat}
    (h : selectIdx wo ms = some i) :
    i < ms.length ∧ isCandidate wo (ms.getD i default) = true := by
  rw [selectIdx] at h
  cases hfp : findFirstIdx (fun m => isCandidate wo m && pipeMatches wo m) ms with
  | some j =>
    rw [hfp] at h
    obtain rfl : j = i := by simpa using h
    obtain ⟨hl, hp⟩ := findFirstIdx_some hfp
    exact ⟨hl, ((Bool.and_eq_true _ _).mp hp).1⟩
  | none =>
    rw [hfp] at h
    exact findFirstIdx_some h

/-- A locked machine row is never mutated by an assignment step: it
remains a member, unchanged. -/
theorem locked_mem_assignStep (now : Int) (st : Store) (wo' : WorkOrder)
    {m : Machine} (hm : m ∈ st.machines) (hlock : m.is_locked = true) :
    m ∈ (assignStep now st wo').machines := by
  rw [assignStep]
  split
  · exact hm
  · split
    · exact hm
    · dsimp only
      rename_i i hsel
      obtain ⟨hilen, hcand⟩ := selectIdx_some hsel
      refine mem_set_of_getD_ne hm (fun heq => ?_)
      have hfalse := isCandidate_not_locked hcand
      rw [heq, hlock] at hfalse
      exact Bool.noConfusion hfalse

theorem locked_mem_auto_assign (now : Int) (wos : List WorkOrder) (st : Store)
    {m : Machine} (hm : m ∈ st.machines) (hlock : m.is_locked = true) :
    m ∈ (auto_assign_work_orders now wos st).machines := by
  induction wos generalizing st with
  | nil => exact hm
  | cons w rest ih =>
    exact ih (assignStep now st w) (locked_mem_assignStep now st w hm hlock)

/-- If no machine is a candidate for `wo`, none is after any
assignment step (assigned machines become locked). -/
theorem noCandidate_assignStep (now : Int) (st : Store) (wo wo' : WorkOrder)
    (h : ∀ m ∈ st.machines, isCandidate wo m = false) :
    ∀ m ∈ (assignStep now st wo').machines, isCandidate wo m = false := by
  intro m hm
  rw [assignStep] at hm
  split at hm
  · exact h m hm
  · split at hm
    · exact h m hm
    · dsimp only at hm
      rcases List.mem_or_eq_of_mem_set hm with hmem | rfl
      · exact h m hmem
      · simp [isCandidate, assignFields]

theorem noCandidate_auto_assign (now : Int) (wos : List WorkOrder)
    (st : Store) (wo : WorkOrder)
    (h : ∀ m ∈ st.machines, isCandidate wo m = false) :
    ∀ m ∈ (auto_assign_work_orders now wos st).machines, isCandidate wo m = false := by
  induction wos generalizing st with
  | nil => exact h
  | cons w rest ih =>
    exact ih (assignStep now st w) (noCandidate_assignStep now st wo w h)

theorem skipStable_assignStep (now : Int) (st : Store) (wo wo' : WorkOrder)
    (h : SkipStable st wo) : SkipStable (assignStep now st wo') wo := by
  rcases h with hinh | ⟨m, hm, hid, hlk⟩ | hnc
  · exact Or.inl hinh
  · exact Or.inr (Or.inl ⟨m, locked_mem_assignStep now st wo' hm hlk, hid, hlk⟩)
  · exact Or.inr (Or.inr (noCandidate_assignStep now st wo wo' hnc))

theorem skipStable_auto_assign (now : Int) (wos : List WorkOrder) (st : Store)
    (wo : WorkOrder) (h : SkipStable st wo) :
    SkipStable (auto_assign_work_orders now wos st) wo := by
  induction wos generalizing st with
  | nil => exact h
  | cons w rest ih =>
    exact ih (assignStep now st w) (skipStable_assignStep now st wo w h)

/-- A permanently skipped work order leaves the store unchanged. -/
theorem assignStep_of_skipStable (now : Int) (st : Store) (wo : WorkOrder)
    (h : SkipStable st wo) : assignStep now st wo = st := by
  rcases h with hinh | ⟨m, hm, hid, hlk⟩ | hnc
  · rw [assignStep, if_pos (by rw [skipWorkOrder, hinh]; rfl)]
  · rw [assignStep, if_pos ?_]
    rw [skipWorkOrder]
    have : st.machines.any (fun m => m.erpnext_work_order_id == some wo.name) = true :=
      List.any_eq_true.mpr ⟨m, hm, by simpa using hid⟩
    rw [this]
    simp
  · rw [assignStep]
    split
    · rfl
    · rw [(selectIdx_eq_none_iff wo st.machines).mpr
        (List.filter_eq_nil_iff.mpr (fun a ha => by simp [hnc a ha]))]

theorem lockedGuard_assignStep (now : Int) (st : Store) (wo' : WorkOrder)
    {wos : List WorkOrder} (h : LockedGuard wos st) :
    LockedGuard wos (assignStep now st wo') := by
  intro m hm wo hwo hid
  rw [assignStep] at hm
  split at hm
  · exact h m hm wo hwo hid
  · split at hm
    · exact h m hm wo hwo hid
    · dsimp only at hm
      rcases List.mem_or_eq_of_mem_set hm with hmem | rfl
      · exact h m hmem wo hwo hid
      · rfl

theorem lockedGuard_tail {w : WorkOrder} {rest : List WorkOrder} {st : Store}
    (h : LockedGuard (w :: rest) st) : LockedGuard rest st :=
  fun m hm wo hwo hid => h m hm wo (List.mem_cons_of_mem _ hwo) hid

/-- After one full assignment pass, every work order of the batch is
permanently skipped (assuming the incoming batch's ERP ids only sit on
locked machines). -/
theorem all_skipStable_after_auto_assign (now : Int) (wos : List WorkOrder)
    (st : Store) (hG : LockedGuard wos st) :
    ∀ wo ∈ wos, SkipStable (auto_assign_work_orders now wos st) wo := by
  induction wos generalizing st with
  | nil => intro wo hwo; cases hwo
  | cons w rest ih =>
    intro wo hwo
    rcases List.mem_cons.mp hwo with rfl | hrest
    · show SkipStable (auto_assign_work_orders now rest (assignStep now st wo)) wo
      apply skipStable_auto_assign
      by_cases hskip : skipWorkOrder st wo = true
      · have hstep : assignStep now st wo = st := by
          rw [assignStep, if_pos hskip]
        rw [hstep]
        rw [skipWorkOrder] at hskip
        rcases Bool.or_eq_true_iff.mp hskip with hab | hc
        · exact Or.inl hab
        · obtain ⟨m, hm, hbeq⟩ := List.any_eq_true.mp hc
          have hid : m.erpnext_work_order_id = some wo.name := by simpa using hbeq
          exact Or.inr (Or.inl
            ⟨m, hm, hid, hG m hm wo (List.mem_cons_self _ _) hid⟩)
      · cases hsel : selectIdx wo st.machines with
        | none =>
          have hstep : assignStep now st wo = st := by
            rw [assignStep, if_neg hskip, hsel]
          rw [hstep]
          refine Or.inr (Or.inr (fun m hm => ?_))
          have hnil := (selectIdx_eq_none_iff wo st.machines).mp hsel
          exact Bool.eq_false_iff.mpr (List.filter_eq_nil_iff.mp hnil m hm)
        | some i =>
          obtain ⟨hilen, _⟩ := selectIdx_some hsel
          refine Or.inr (Or.inl
            ⟨assignFields wo (st.machines.getD i default), ?_, rfl, rfl⟩)
          rw [assignStep, if_neg hskip, hsel]
          exact mem_set_self hilen
    · exact ih (assignStep now st w)
        (lockedGuard_tail (lockedGuard_assignStep now st w hG)) wo hrest

theorem auto_assign_of_all_skipStable (now : Int) (wos : List WorkOrder)
    (st : Store) :
    (∀ wo ∈ wos, SkipStable st wo) → auto_assign_work_orders now wos st = st := by
  induction wos with
  | nil => intro _; rfl
  | cons w rest ih =>
    intro h
    have h1 : assignStep now st w = st :=
      assignStep_of_skipStable now st w (h w (List.mem_cons_self _ _))
    calc auto_assign_work_orders now (w :: rest) st
        = auto_assign_work_orders now rest (assignStep now st w) := rfl
      _ = auto_assign_work_orders now rest st := by rw [h1]
      _ = st := ih (fun wo hwo => h wo (List.mem_cons_of_mem _ hwo))

/-! ## Claim theorems: assignment idempotence (C2) -/

/-- C2 as stated is false (counterexample): machine `mStale` is
unlocked and still carries `WO1`'s ERP id, so the first pass skips
`WO1` (existing id) but hands `mStale` to `WO2`, overwriting the id;
the second pass then finds no machine carrying `WO1`, assigns it to
`mFree`, mutating a machine and creating a second assignment record. -/
theorem assignment_not_idempotent :
    (auto_assign_work_orders 0 [woOne, woTwo] stStale).metas.length = 1 ∧
    (auto_assign_work_orders 0 [woOne, woTwo]
      (auto_assign_work_orders 0 [woOne, woTwo] stStale)).metas.length = 2 ∧
    auto_assign_work_orders 0 [woOne, woTwo]
        (auto_assign_work_orders 0 [woOne, woTwo] stStale) ≠
      auto_assign_work_orders 0 [woOne, woTwo] stStale := by
  refine ⟨rfl, rfl, ?_⟩
  decide

/-- C2 amended: the assignment pass is idempotent provided every
machine whose `erpnext_work_order_id` matches one of the incoming work
orders is locked (no stale unlocked machine still carries one of the
batch's ids): a second pass over the same work orders produces no
second assignment record and mutates no machine. -/
theorem assignment_idempotent (now now2 : Int) (wos : List WorkOrder) (st : Store)
    (hG : LockedGuard wos st) :
    auto_assign_work_orders now2 wos (auto_assign_work_orders now wos st) =
      auto_assign_work_orders now wos st :=
  auto_assign_of_all_skipStable now2 wos _
    (all_skipStable_after_auto_assign now wos st hG)

/-- Witness for the amended C2 on a clean store. -/
theorem assignment_idempotent_witness :
    auto_assign_work_orders 1 [woOne] (auto_assign_work_orders 0 [woOne] stIdle) =
      auto_assign_work_orders 0 [woOne] stIdle :=
  assignment_idempotent 0 1 [woOne] stIdle (by decide)

end TacoProduction
